import Mathlib

/-!
Shallow embedding of the Volcengine MaaS TTS protocol client
(`models/volcengine_maas/models/tts/tts.py`).

Bytes are modelled as `List Nat` (each element intended `< 256`, as Python
`bytes` guarantees).  Python's `int.from_bytes(_, "big")` is `fromBytesBE`
(unsigned) and `fromBytesBESigned` (signed); `n.to_bytes(4, 'big')` is
`toBytesBE 4 n`.  Python slicing `xs[a:]`/`xs[:b]` is `List.drop`/`List.take`
(both total, never raising, exactly as in Python).  `gzip.compress`,
`gzip.decompress` and `json.dumps` are external libraries: the decoder is
parameterised over an abstract `gunzip : List Nat → Option (List Nat)`
(`none` models `gzip.decompress` raising), and the encoder is stated over
the already-compressed payload bytes.  A raised Python exception is an
`Except.error` carrying a `PyError`; the UTF-8 error message is represented
by its byte sequence.
-/

namespace VolcTTS

/-- Python exceptions that the decoder / session loop can raise.
`invokeBadRequest` is `InvokeBadRequestError(f"Error code {code}: {msg}")`;
`gzipDecompressError` is `gzip.decompress` raising on bad data;
`indexError` is `bytes.__getitem__` out of range;
`connectionClosed` is `ws.recv()` failing because the transport closed
before a final frame. -/
inductive PyError where
  | invokeBadRequest (code : Nat) (msg : List Nat)
  | gzipDecompressError
  | indexError
  | connectionClosed
deriving DecidableEq, Repr

/-- Big-endian unsigned decoding: Python `int.from_bytes(bs, "big", signed=False)`.
On the empty list this is `0`, exactly as in Python. -/
def fromBytesBE (bs : List Nat) : Nat :=
  bs.foldl (fun a b => a * 256 + b) 0

/-- Big-endian signed (two's complement) decoding:
Python `int.from_bytes(bs, "big", signed=True)`. -/
def fromBytesBESigned (bs : List Nat) : Int :=
  if 128 ≤ bs.headD 0 then
    (fromBytesBE bs : Int) - (256 : Int) ^ bs.length
  else
    (fromBytesBE bs : Int)

/-- Big-endian encoding into exactly `k` bytes:
Python `n.to_bytes(k, 'big')` (defined for `n < 256 ^ k`). -/
def toBytesBE : Nat → Nat → List Nat
  | 0, _ => []
  | k + 1, n => toBytesBE k (n / 256) ++ [n % 256]

/-- Source: `header_size = response[0] & 0x0f` (tts.py line 219). -/
def headerSize (r : List Nat) : Nat := Nat.land (r.getD 0 0) 15

/-- Source: `message_type = response[1] >> 4` (tts.py line 216). -/
def messageType (r : List Nat) : Nat := Nat.shiftRight (r.getD 1 0) 4

/-- Source: `message_type_specific_flags = response[1] & 0x0f` (tts.py line 217). -/
def messageFlags (r : List Nat) : Nat := Nat.land (r.getD 1 0) 15

/-- Source: `message_compression = response[2] & 0x0f` (tts.py line 218). -/
def messageCompression (r : List Nat) : Nat := Nat.land (r.getD 2 0) 15

/-- Source: `payload = response[header_size * 4:]` (tts.py line 220). -/
def payloadOf (r : List Nat) : List Nat := r.drop (headerSize r * 4)

/-- Source: `_parse_response(response, audio_buffer)` (tts.py lines 207-254).
The result `.ok (done, audio)` means the call returned `done` after writing
`audio` to `audio_buffer`; `.error e` means it raised `e`.  The guard
`response.length < 3` models Python's `IndexError` on `response[0..2]`;
below it the `getD` accesses coincide with Python indexing. -/
def parseResponse (gunzip : List Nat → Option (List Nat)) (response : List Nat) :
    Except PyError (Bool × List Nat) :=
  if response.length < 3 then .error .indexError
  else
    let payload := payloadOf response
    if messageType response = 0xb then
      if messageFlags response = 0 then
        .ok (false, [])
      else
        let sequence_number := fromBytesBESigned (payload.take 4)
        let audio_data := payload.drop 8
        .ok (decide (sequence_number < 0), audio_data)
    else if messageType response = 0xf then
      let code := fromBytesBE (payload.take 4)
      let error_msg := payload.drop 8
      if messageCompression response = 1 then
        match gunzip error_msg with
        | none => .error .gzipDecompressError
        | some m => .error (.invokeBadRequest code m)
      else
        .error (.invokeBadRequest code error_msg)
    else if messageType response = 0xc then
      let msg_payload := payload.drop 4
      if messageCompression response = 1 then
        match gunzip msg_payload with
        | none => .error .gzipDecompressError
        | some _ => .ok (true, [])
      else
        .ok (true, [])
    else
      .ok (false, [])

/-- The receive loop of `_get_audio_data` (tts.py lines 199-205): repeatedly
take the next inbound frame, parse it into `audio_buffer` (`acc`), stop when
the parser returns `True` and return the buffer.  Running out of frames
models the transport closing before a final frame (`ws.recv()` raising). -/
def getAudioData (gunzip : List Nat → Option (List Nat)) :
    List (List Nat) → List Nat → Except PyError (List Nat)
  | [], _ => .error .connectionClosed
  | r :: rest, acc =>
    match parseResponse gunzip r with
    | .error e => .error e
    | .ok (done, audio) =>
      if done then .ok (acc ++ audio) else getAudioData gunzip rest (acc ++ audio)

/-- Source: `DEFAULT_HEADER = bytearray(b'\x11\x10\x11\x00')` (tts.py line 54). -/
def DEFAULT_HEADER : List Nat := [0x11, 0x10, 0x11, 0x00]

/-- Request-frame construction in `_get_audio_data` (tts.py lines 184-190),
stated over the already gzip-compressed JSON payload bytes:
`header ++ len(payload).to_bytes(4,'big') ++ payload`. -/
def fullClientRequest (payload_bytes : List Nat) : List Nat :=
  DEFAULT_HEADER ++ toBytesBE 4 payload_bytes.length ++ payload_bytes

/-- The per-sentence loop of `_invoke_streaming` (tts.py lines 158-168):
run one session per sentence in order, yield each chunk's audio; a raised
error stops the generator.  Result: the list of yielded buffers, and the
error that ended the loop (if any). -/
def invokeStreaming (session : String → Except PyError (List Nat)) :
    List String → List (List Nat) × Option PyError
  | [] => ([], none)
  | s :: rest =>
    match session s with
    | .error e => ([], some e)
    | .ok audio =>
      let r := invokeStreaming session rest
      (audio :: r.1, r.2)

/-- Voice selection in `_invoke` (tts.py lines 76-79): an empty or unlisted
voice falls back to the model's default voice. -/
def chooseVoice (voice : String) (voices : List String) (defaultVoice : String) : String :=
  if voice = "" ∨ ¬ voices.contains voice then defaultVoice else voice

/-! Helper lemmas. -/

theorem land_fifteen (x : Nat) : Nat.land x 15 = x % 16 :=
  Nat.and_pow_two_sub_one_eq_mod x 4

theorem shiftRight_four (x : Nat) : Nat.shiftRight x 4 = x / 16 :=
  Nat.shiftRight_eq_div_pow x 4

theorem parseResponse_short (g : List Nat → Option (List Nat)) (r : List Nat)
    (h : r.length < 3) : parseResponse g r = .error .indexError := by
  simp [parseResponse, h]

theorem parseResponse_ack (g : List Nat → Option (List Nat)) (r : List Nat)
    (h3 : ¬ r.length < 3) (ht : messageType r = 0xb) (hf : messageFlags r = 0) :
    parseResponse g r = .ok (false, []) := by
  simp [parseResponse, h3, ht, hf]

theorem parseResponse_audio (g : List Nat → Option (List Nat)) (r : List Nat)
    (h3 : ¬ r.length < 3) (ht : messageType r = 0xb) (hf : messageFlags r ≠ 0) :
    parseResponse g r =
      .ok (decide (fromBytesBESigned ((payloadOf r).take 4) < 0), (payloadOf r).drop 8) := by
  simp [parseResponse, h3, ht, hf]

theorem parseResponse_error_plain (g : List Nat → Option (List Nat)) (r : List Nat)
    (h3 : ¬ r.length < 3) (ht : messageType r = 0xf) (hc : messageCompression r ≠ 1) :
    parseResponse g r =
      .error (.invokeBadRequest (fromBytesBE ((payloadOf r).take 4)) ((payloadOf r).drop 8)) := by
  simp [parseResponse, h3, ht, hc]

theorem parseResponse_error_gzip (g : List Nat → Option (List Nat)) (r : List Nat)
    (m : List Nat) (h3 : ¬ r.length < 3) (ht : messageType r = 0xf)
    (hc : messageCompression r = 1) (hg : g ((payloadOf r).drop 8) = some m) :
    parseResponse g r = .error (.invokeBadRequest (fromBytesBE ((payloadOf r).take 4)) m) := by
  simp [parseResponse, h3, ht, hc, hg]

theorem parseResponse_error_gzip_fail (g : List Nat → Option (List Nat)) (r : List Nat)
    (h3 : ¬ r.length < 3) (ht : messageType r = 0xf)
    (hc : messageCompression r = 1) (hg : g ((payloadOf r).drop 8) = none) :
    parseResponse g r = .error .gzipDecompressError := by
  simp [parseResponse, h3, ht, hc, hg]

theorem parseResponse_frontend_plain (g : List Nat → Option (List Nat)) (r : List Nat)
    (h3 : ¬ r.length < 3) (ht : messageType r = 0xc) (hc : messageCompression r ≠ 1) :
    parseResponse g r = .ok (true, []) := by
  simp [parseResponse, h3, ht, hc]

theorem parseResponse_frontend_gzip (g : List Nat → Option (List Nat)) (r : List Nat)
    (m : List Nat) (h3 : ¬ r.length < 3) (ht : messageType r = 0xc)
    (hc : messageCompression r = 1) (hg : g ((payloadOf r).drop 4) = some m) :
    parseResponse g r = .ok (true, []) := by
  simp [parseResponse, h3, ht, hc, hg]

theorem parseResponse_frontend_gzip_fail (g : List Nat → Option (List Nat)) (r : List Nat)
    (h3 : ¬ r.length < 3) (ht : messageType r = 0xc)
    (hc : messageCompression r = 1) (hg : g ((payloadOf r).drop 4) = none) :
    parseResponse g r = .error .gzipDecompressError := by
  simp [parseResponse, h3, ht, hc, hg]

theorem parseResponse_other (g : List Nat → Option (List Nat)) (r : List Nat)
    (h3 : ¬ r.length < 3) (ht : messageType r ≠ 0xb) (ht2 : messageType r ≠ 0xf)
    (ht3 : messageType r ≠ 0xc) : parseResponse g r = .ok (false, []) := by
  simp [parseResponse, h3, ht, ht2, ht3]

theorem getAudioData_append_continue (g : List Nat → Option (List Nat))
    (pre rest : List (List Nat)) (acc : List Nat)
    (h : ∀ f ∈ pre, ∃ a, parseResponse g f = .ok (false, a)) :
    ∃ acc2, getAudioData g (pre ++ rest) acc = getAudioData g rest acc2 := by
  induction pre generalizing acc with
  | nil => exact ⟨acc, rfl⟩
  | cons f fs ih =>
    obtain ⟨a, ha⟩ := h f (List.mem_cons_self f fs)
    have hstep : getAudioData g ((f :: fs) ++ rest) acc = getAudioData g (fs ++ rest) (acc ++ a) := by
      simp [getAudioData, ha]
    rw [hstep]
    exact ih (acc ++ a) (fun f2 hf2 => h f2 (List.mem_cons_of_mem f hf2))

theorem toBytesBE_length (k n : Nat) : (toBytesBE k n).length = k := by
  induction k generalizing n with
  | zero => rfl
  | succ k ih => simp [toBytesBE, ih]

theorem fromBytesBE_append_one (bs : List Nat) (b : Nat) :
    fromBytesBE (bs ++ [b]) = fromBytesBE bs * 256 + b := by
  simp [fromBytesBE, List.foldl_append]

theorem fromBytesBE_toBytesBE (k n : Nat) (h : n < 256 ^ k) :
    fromBytesBE (toBytesBE k n) = n := by
  induction k generalizing n with
  | zero =>
    simp [pow_zero] at h
    simp [toBytesBE, fromBytesBE, h]
  | succ k ih =>
    have hlt : n / 256 < 256 ^ k := by
      rw [Nat.div_lt_iff_lt_mul (by norm_num)]
      calc n < 256 ^ (k + 1) := h
        _ = 256 ^ k * 256 := by ring
    rw [toBytesBE, fromBytesBE_append_one, ih (n / 256) hlt]
    have := Nat.div_add_mod n 256
    omega

theorem toBytesBE_four (n : Nat) :
    toBytesBE 4 n = [n / 256 / 256 / 256 % 256, n / 256 / 256 % 256, n / 256 % 256, n % 256] := by
  simp [toBytesBE]

/-! Claim theorems. -/

/-- C4: the decoder reads the header size from the low nibble of byte 0, the
message type from the high nibble of byte 1, the flags from the low nibble of
byte 1 and the compression method from the low nibble of byte 2, and the
payload begins at offset `header_size * 4`; for any frame whose byte 0 is
`0x11` the header size computes to 1 word and the payload starts at offset 4. -/
theorem decode_header_fields (r : List Nat) :
    headerSize r = r.getD 0 0 % 16 ∧
    messageType r = r.getD 1 0 / 16 ∧
    messageFlags r = r.getD 1 0 % 16 ∧
    messageCompression r = r.getD 2 0 % 16 ∧
    payloadOf r = r.drop (headerSize r * 4) ∧
    (r.getD 0 0 = 0x11 → headerSize r = 1 ∧ payloadOf r = r.drop 4) := by
  refine ⟨land_fifteen _, shiftRight_four _, land_fifteen _, land_fifteen _, rfl, ?_⟩
  intro h
  have h1 : headerSize r = 1 := by
    unfold headerSize
    rw [h]
    decide
  refine ⟨h1, ?_⟩
  unfold payloadOf
  rw [h1]

theorem decode_header_fields_witness :
    headerSize [17, 191, 1, 0, 9] = 1 ∧ payloadOf [17, 191, 1, 0, 9] = [9] := by
  have h := (decode_header_fields [17, 191, 1, 0, 9]).2.2.2.2.2 (by decide)
  exact ⟨h.1, by rw [h.2]; rfl⟩

/-- C10: the public entry point falls back to the model's default voice when
the requested voice is empty or not among the model's listed voices, and uses
the requested voice unchanged otherwise. -/
theorem invoke_voice_fallback (voice defaultVoice : String) (voices : List String) :
    ((voice = "" ∨ voice ∉ voices) → chooseVoice voice voices defaultVoice = defaultVoice) ∧
    (voice ≠ "" → voice ∈ voices → chooseVoice voice voices defaultVoice = voice) := by
  constructor
  · intro h
    have hc : voice = "" ∨ ¬ voices.contains voice := by
      rcases h with h | h
      · exact Or.inl h
      · exact Or.inr (by simpa using h)
    simp only [chooseVoice, if_pos hc]
  · intro h1 h2
    have hb : voices.contains voice := by simpa using h2
    have hc : ¬ (voice = "" ∨ ¬ voices.contains voice) := by
      intro hor
      rcases hor with h | h
      · exact h1 h
      · exact h hb
    simp only [chooseVoice, if_neg hc]

theorem invoke_voice_fallback_witness :
    chooseVoice "zh_male" ["zh_female"] "zh_female" = "zh_female" ∧
    chooseVoice "zh_female" ["zh_female"] "other" = "zh_female" := by
  constructor
  · exact (invoke_voice_fallback "zh_male" "zh_female" ["zh_female"]).1 (by simp)
  · exact (invoke_voice_fallback "zh_female" "other" ["zh_female"]).2 (by simp) (by simp)

/-- C9: a frame whose message type is not the audio-only response, and an
audio-only frame whose flags nibble is 0, never append bytes to the audio
accumulator: whenever the decoder returns normally on such a frame it wrote
nothing. -/
theorem nonsequenced_frames_append_nothing (g : List Nat → Option (List Nat))
    (r : List Nat) (b : Bool) (a : List Nat)
    (h : messageType r ≠ 0xb ∨ messageFlags r = 0)
    (hp : parseResponse g r = .ok (b, a)) : a = [] := by
  by_cases h3 : r.length < 3
  · rw [parseResponse_short g r h3] at hp
    exact Except.noConfusion hp
  · by_cases hb : messageType r = 0xb
    · have hfl : messageFlags r = 0 := by
        rcases h with h | h
        · exact absurd hb h
        · exact h
      rw [parseResponse_ack g r h3 hb hfl] at hp
      simp only [Except.ok.injEq, Prod.mk.injEq] at hp
      exact hp.2.symm
    · by_cases hf : messageType r = 0xf
      · by_cases hcp : messageCompression r = 1
        · rcases hg : g ((payloadOf r).drop 8) with _ | m
          · rw [parseResponse_error_gzip_fail g r h3 hf hcp hg] at hp
            exact Except.noConfusion hp
          · rw [parseResponse_error_gzip g r m h3 hf hcp hg] at hp
            exact Except.noConfusion hp
        · rw [parseResponse_error_plain g r h3 hf hcp] at hp
          exact Except.noConfusion hp
      · by_cases hfr : messageType r = 0xc
        · by_cases hcp : messageCompression r = 1
          · rcases hg : g ((payloadOf r).drop 4) with _ | m
            · rw [parseResponse_frontend_gzip_fail g r h3 hfr hcp hg] at hp
              exact Except.noConfusion hp
            · rw [parseResponse_frontend_gzip g r m h3 hfr hcp hg] at hp
              simp only [Except.ok.injEq, Prod.mk.injEq] at hp
              exact hp.2.symm
          · rw [parseResponse_frontend_plain g r h3 hfr hcp] at hp
            simp only [Except.ok.injEq, Prod.mk.injEq] at hp
            exact hp.2.symm
        · rw [parseResponse_other g r h3 hb hf hfr] at hp
          simp only [Except.ok.injEq, Prod.mk.injEq] at hp
          exact hp.2.symm

theorem nonsequenced_frames_append_nothing_witness :
    parseResponse (fun bs => some bs) [17, 176, 0, 0, 5, 6, 7] = .ok (false, []) ∧
    ([] : List Nat) = [] :=
  ⟨by rfl, nonsequenced_frames_append_nothing (fun bs => some bs) [17, 176, 0, 0, 5, 6, 7]
    false [] (by decide) (by rfl)⟩

/-- C1: for an audio-only frame (type 0xb) with flags 0 the decoder returns
Continue with zero audio bytes; otherwise it appends exactly the bytes after
the 8-byte prefix and signals Done exactly when the 4-byte big-endian signed
sequence number is negative; a negative-sequence frame ends the receive loop
in Done (returning the accumulated audio) no matter how many Continue frames
preceded it. -/
theorem audio_frame_decode (g : List Nat → Option (List Nat)) (r : List Nat)
    (h3 : ¬ r.length < 3) (ht : messageType r = 0xb) :
    (messageFlags r = 0 → parseResponse g r = .ok (false, [])) ∧
    (messageFlags r ≠ 0 →
      parseResponse g r =
        .ok (decide (fromBytesBESigned ((payloadOf r).take 4) < 0), (payloadOf r).drop 8) ∧
      (fromBytesBESigned ((payloadOf r).take 4) < 0 →
        ∀ pre acc, (∀ f ∈ pre, ∃ a, parseResponse g f = .ok (false, a)) →
          ∃ acc2, getAudioData g (pre ++ [r]) acc = .ok (acc2 ++ (payloadOf r).drop 8))) := by
  refine ⟨fun hf => parseResponse_ack g r h3 ht hf, fun hf => ⟨parseResponse_audio g r h3 ht hf, ?_⟩⟩
  intro hneg pre acc hpre
  obtain ⟨acc2, hacc⟩ := getAudioData_append_continue g pre [r] acc hpre
  refine ⟨acc2, ?_⟩
  rw [hacc]
  have hp := parseResponse_audio g r h3 ht hf
  simp [getAudioData, hp, hneg]

theorem audio_frame_decode_witness :
    parseResponse (fun bs => some bs)
      [17, 178, 0, 0, 255, 255, 255, 255, 0, 0, 0, 2, 9, 9] = .ok (true, [9, 9]) ∧
    ∃ acc2, getAudioData (fun bs => some bs)
      [[17, 176, 0, 0], [17, 178, 0, 0, 255, 255, 255, 255, 0, 0, 0, 2, 9, 9]] [] =
      .ok (acc2 ++ [9, 9]) := by
  have h := (audio_frame_decode (fun bs => some bs)
      [17, 178, 0, 0, 255, 255, 255, 255, 0, 0, 0, 2, 9, 9] (by decide) (by decide)).2 (by decide)
  constructor
  · rw [h.1]
    rfl
  · have h2 := h.2 (by decide) [[17, 176, 0, 0]] []
      (by
        intro f hf
        simp only [List.mem_singleton] at hf
        subst hf
        exact ⟨[], rfl⟩)
    exact h2

/-- C2: the encoded synthesis request is exactly the fixed 4-byte header
`0x11 0x10 0x11 0x00`, then the compressed payload's byte length as a 4-byte
big-endian unsigned integer, then the gzip-compressed JSON payload itself. -/
theorem encode_request_frame (p : List Nat) (h : p.length < 2 ^ 32) :
    fullClientRequest p = [0x11, 0x10, 0x11, 0x00] ++ toBytesBE 4 p.length ++ p ∧
    (fullClientRequest p).take 4 = DEFAULT_HEADER ∧
    (toBytesBE 4 p.length).length = 4 ∧
    ((fullClientRequest p).drop 4).take 4 = toBytesBE 4 p.length ∧
    fromBytesBE (((fullClientRequest p).drop 4).take 4) = p.length ∧
    (fullClientRequest p).drop 8 = p := by
  have h' : p.length < 256 ^ 4 := by
    have e : (256 : Nat) ^ 4 = 2 ^ 32 := by norm_num
    omega
  have hrt : fromBytesBE (toBytesBE 4 p.length) = p.length :=
    fromBytesBE_toBytesBE 4 p.length h'
  have c2 : (fullClientRequest p).take 4 = DEFAULT_HEADER := by
    simp [fullClientRequest, DEFAULT_HEADER, toBytesBE_four]
  have c4 : ((fullClientRequest p).drop 4).take 4 = toBytesBE 4 p.length := by
    simp [fullClientRequest, DEFAULT_HEADER, toBytesBE_four]
  have c6 : (fullClientRequest p).drop 8 = p := by
    simp [fullClientRequest, DEFAULT_HEADER, toBytesBE_four]
  exact ⟨rfl, c2, toBytesBE_length 4 p.length, c4, by rw [c4]; exact hrt, c6⟩

theorem encode_request_frame_witness :
    ([1, 2, 3] : List Nat).length < 2 ^ 32 ∧
    fullClientRequest [1, 2, 3] = [0x11, 0x10, 0x11, 0x00] ++ toBytesBE 4 3 ++ [1, 2, 3] := by
  refine ⟨by norm_num, ?_⟩
  exact (encode_request_frame [1, 2, 3] (by norm_num)).1

/-- C3: an error frame (type 0xf) makes the decoder raise a failure carrying
exactly the 4-byte big-endian unsigned error code and the message bytes
(gzip-decompressed first when the compression nibble is 1); the failure
propagates through the receive loop, so the accumulated audio is never
returned for that chunk. -/
theorem error_frame_fails_session (g : List Nat → Option (List Nat)) (r m : List Nat)
    (h3 : ¬ r.length < 3) (ht : messageType r = 0xf)
    (hm : (if messageCompression r = 1 then g ((payloadOf r).drop 8)
           else some ((payloadOf r).drop 8)) = some m) :
    parseResponse g r = .error (.invokeBadRequest (fromBytesBE ((payloadOf r).take 4)) m) ∧
    ∀ pre post acc, (∀ f ∈ pre, ∃ a, parseResponse g f = .ok (false, a)) →
      getAudioData g (pre ++ r :: post) acc =
        .error (.invokeBadRequest (fromBytesBE ((payloadOf r).take 4)) m) := by
  have hp : parseResponse g r =
      .error (.invokeBadRequest (fromBytesBE ((payloadOf r).take 4)) m) := by
    by_cases hc : messageCompression r = 1
    · rw [if_pos hc] at hm
      exact parseResponse_error_gzip g r m h3 ht hc hm
    · rw [if_neg hc] at hm
      obtain rfl : (payloadOf r).drop 8 = m := Option.some.inj hm
      exact parseResponse_error_plain g r h3 ht hc
  refine ⟨hp, ?_⟩
  intro pre post acc hpre
  obtain ⟨acc2, hacc⟩ := getAudioData_append_continue g pre (r :: post) acc hpre
  rw [hacc]
  simp [getAudioData, hp]

theorem error_frame_fails_session_witness :
    parseResponse (fun bs => some bs) [17, 240, 0, 0, 0, 0, 0, 42, 0, 0, 0, 1, 65] =
      .error (.invokeBadRequest 42 [65]) ∧
    getAudioData (fun bs => some bs)
      [[17, 176, 0, 0], [17, 240, 0, 0, 0, 0, 0, 42, 0, 0, 0, 1, 65]] [] =
      .error (.invokeBadRequest 42 [65]) := by
  have h := error_frame_fails_session (fun bs => some bs)
      [17, 240, 0, 0, 0, 0, 0, 42, 0, 0, 0, 1, 65] [65] (by decide) (by decide) (by rfl)
  constructor
  · exact h.1
  · exact h.2 [[17, 176, 0, 0]] [] []
      (by
        intro f hf
        simp only [List.mem_singleton] at hf
        subst hf
        exact ⟨[], rfl⟩)

/-- C5 counterexample: a frontend/metadata frame (type 0xc) does NOT leave the
session in Receiving — the decoder returns done = true, so the receive loop
ends at that frame and a subsequent final audio frame is never processed. -/
theorem frontend_frame_counterexample :
    parseResponse (fun bs => some bs) [17, 192, 0, 0, 0, 0, 0, 0] = .ok (true, []) ∧
    getAudioData (fun bs => some bs)
      [[17, 192, 0, 0, 0, 0, 0, 0],
       [17, 178, 0, 0, 255, 255, 255, 255, 0, 0, 0, 1, 7]] [] = .ok [] := by
  exact ⟨rfl, rfl⟩

/-- C5 amended: for every frontend/metadata frame (type 0xc) the decoder reads
the message size, decompresses the remainder when the compression nibble is 1,
and appends no audio bytes — but it returns Done, ending the receive loop,
rather than Continue. -/
theorem frontend_frame_decode (g : List Nat → Option (List Nat)) (r : List Nat)
    (h3 : ¬ r.length < 3) (ht : messageType r = 0xc)
    (hm : messageCompression r = 1 → ∃ m, g ((payloadOf r).drop 4) = some m) :
    parseResponse g r = .ok (true, []) := by
  by_cases hc : messageCompression r = 1
  · obtain ⟨m, hg⟩ := hm hc
    exact parseResponse_frontend_gzip g r m h3 ht hc hg
  · exact parseResponse_frontend_plain g r h3 ht hc

theorem frontend_frame_decode_witness :
    parseResponse (fun bs => some bs) [17, 192, 1, 0, 0, 0, 0, 2, 8, 8] = .ok (true, []) :=
  frontend_frame_decode (fun bs => some bs) [17, 192, 1, 0, 0, 0, 0, 2, 8, 8]
    (by decide) (by decide) (fun _ => ⟨[8, 8], rfl⟩)

/-- C7 counterexample: an audio frame declaring 100 audio bytes but carrying
only 2 is not rejected as malformed — the decoder succeeds and silently
returns the truncated bytes. -/
theorem truncated_payload_counterexample :
    fromBytesBE ((payloadOf [17, 177, 0, 0, 0, 0, 0, 1, 0, 0, 0, 100, 7, 8]).drop 4 |>.take 4) =
      100 ∧
    ((payloadOf [17, 177, 0, 0, 0, 0, 0, 1, 0, 0, 0, 100, 7, 8]).drop 8).length = 2 ∧
    parseResponse (fun bs => some bs) [17, 177, 0, 0, 0, 0, 0, 1, 0, 0, 0, 100, 7, 8] =
      .ok (false, [7, 8]) := by
  exact ⟨rfl, rfl, rfl⟩

/-- C7 amended: the decoder performs no length validation on audio frames —
for every audio-only response frame carrying a sequence number (type 0xb,
flags ≠ 0) whose payload holds fewer audio bytes than its declared 4-byte
size, decoding succeeds and silently appends exactly the truncated bytes
after the 8-byte prefix, instead of failing with a malformed-frame error. -/
theorem short_payload_still_accepted (g : List Nat → Option (List Nat)) (r : List Nat)
    (h3 : ¬ r.length < 3) (ht : messageType r = 0xb) (hf : messageFlags r ≠ 0)
    (hshort : ((payloadOf r).drop 8).length < fromBytesBE (((payloadOf r).drop 4).take 4)) :
    parseResponse g r =
      .ok (decide (fromBytesBESigned ((payloadOf r).take 4) < 0), (payloadOf r).drop 8) :=
  parseResponse_audio g r h3 ht hf

theorem short_payload_still_accepted_witness :
    ((payloadOf [17, 177, 0, 0, 0, 0, 0, 2, 0, 0, 0, 50, 3]).drop 8).length <
      fromBytesBE (((payloadOf [17, 177, 0, 0, 0, 0, 0, 2, 0, 0, 0, 50, 3]).drop 4).take 4) ∧
    parseResponse (fun bs => some bs) [17, 177, 0, 0, 0, 0, 0, 2, 0, 0, 0, 50, 3] =
      .ok (false, [3]) := by
  refine ⟨by decide, ?_⟩
  rw [short_payload_still_accepted (fun bs => some bs) [17, 177, 0, 0, 0, 0, 0, 2, 0, 0, 0, 50, 3]
    (by decide) (by decide) (by decide) (by decide)]
  rfl

/-- C8 counterexample: on an error frame whose gzip-compressed message fails
to decompress, the decoder does not report any malformed-frame failure — the
raw decompression exception propagates, and the server error code
(45000001 here) is discarded rather than carried on the failure. -/
theorem gzip_failure_counterexample :
    fromBytesBE ((payloadOf [17, 240, 1, 0, 2, 174, 165, 65, 0, 0, 0, 3, 1, 2, 3]).take 4) =
      45000001 ∧
    parseResponse (fun _ => none) [17, 240, 1, 0, 2, 174, 165, 65, 0, 0, 0, 3, 1, 2, 3] =
      .error .gzipDecompressError := by
  exact ⟨rfl, rfl⟩

/-- C8 amended: for every error frame whose compression nibble is 1 and whose
message bytes fail to decompress, the decoder propagates the decompression
exception itself — unhandled and carrying neither the server error code nor a
message — aborting the session. -/
theorem gzip_failure_propagates (g : List Nat → Option (List Nat)) (r : List Nat)
    (h3 : ¬ r.length < 3) (ht : messageType r = 0xf)
    (hc : messageCompression r = 1) (hg : g ((payloadOf r).drop 8) = none) :
    parseResponse g r = .error .gzipDecompressError :=
  parseResponse_error_gzip_fail g r h3 ht hc hg

theorem gzip_failure_propagates_witness :
    parseResponse (fun _ => none) [17, 240, 1, 0, 0, 0, 0, 9, 0, 0, 0, 1, 4] =
      .error .gzipDecompressError :=
  gzip_failure_propagates (fun _ => none) [17, 240, 1, 0, 0, 0, 0, 9, 0, 0, 0, 1, 4]
    (by decide) (by decide) (by decide) rfl

/-- C6: the streaming loop drives one session per text chunk, in order, and
yields exactly one audio buffer per chunk in original chunk-index order; if a
chunk's session fails, no buffer for that chunk or any later chunk is
yielded and the failure is surfaced to the caller. -/
theorem streaming_order_and_failure (session : String → Except PyError (List Nat)) :
    (∀ (f : String → List Nat) (ss : List String),
      (∀ s ∈ ss, session s = .ok (f s)) →
      invokeStreaming session ss = (ss.map f, none)) ∧
    (∀ (f : String → List Nat) (pre : List String) (bad : String) (post : List String)
        (e : PyError),
      (∀ s ∈ pre, session s = .ok (f s)) → session bad = .error e →
      invokeStreaming session (pre ++ bad :: post) = (pre.map f, some e)) := by
  constructor
  · intro f ss h
    induction ss with
    | nil => rfl
    | cons s rest ih =>
      have hs : session s = .ok (f s) := h s (List.mem_cons_self s rest)
      have hr := ih (fun s2 hs2 => h s2 (List.mem_cons_of_mem s hs2))
      simp [invokeStreaming, hs, hr]
  · intro f pre bad post e hpre hbad
    induction pre with
    | nil => simp [invokeStreaming, hbad]
    | cons s rest ih =>
      have hs : session s = .ok (f s) := hpre s (List.mem_cons_self s rest)
      have hr := ih (fun s2 hs2 => hpre s2 (List.mem_cons_of_mem s hs2))
      simp [invokeStreaming, hs, hr]

theorem streaming_order_and_failure_witness :
    invokeStreaming
      (fun s => if s = "x" then .error .connectionClosed else .ok [s.length]) ["a", "bb"] =
      ([[1], [2]], none) ∧
    invokeStreaming
      (fun s => if s = "x" then .error .connectionClosed else .ok [s.length])
      ["a", "x", "bb"] = ([[1]], some .connectionClosed) := by
  have h := streaming_order_and_failure
    (fun s => if s = "x" then .error .connectionClosed else .ok [s.length])
  constructor
  · have h1 := h.1 (fun s => [s.length]) ["a", "bb"] (by intro s hs; fin_cases hs <;> rfl)
    rw [h1]
    rfl
  · have h2 := h.2 (fun s => [s.length]) ["a"] "x" ["bb"] .connectionClosed
      (by intro s hs; fin_cases hs <;> rfl) rfl
    rw [show (["a", "x", "bb"] : List String) = ["a"] ++ "x" :: ["bb"] from rfl, h2]
    rfl

end VolcTTS
